import Mathlib

/-!
# Verification of the Options_app dashboard

Shallow embedding of `src/Options_app.py` (a single-page Streamlit dashboard)
together with the indicator/pricing-engine operations described by the
specification, and proofs settling the frozen claims C1–C10.

Modelling conventions:
* Python values flowing through the helpers are modelled by `PyVal`
  (ints, floats, bools, strings, and Python's `None`).  Python's `bool` is a
  subclass of `int`, so `isinstance(value, (int, float))` accepts it.
* Python numbers are modelled exactly by `ℚ`; `f"{x:.kf}"` fixed-point
  rendering is modelled by `formatFixed` (rounding to nearest, ties away from
  the floor, which agrees with Python except on exact ties).
* Fallible effects (network fetches, widget rendering) are modelled by
  `Except String`; `try/except Exception` is modelled by `pyTry`.
-/

namespace OptionsApp

/-- A Python value as it flows through the helper functions of the app. -/
inductive PyVal where
  | int (i : ℤ)
  | float (q : ℚ)
  | pyBool (b : Bool)
  | str (s : String)
  | pyNone
  deriving DecidableEq, Repr

/-- Python's `isinstance(value, (int, float))`: true for `int`, `float`
and `bool` (a subclass of `int`). -/
def isinstanceNum : PyVal → Bool
  | .int _ => true
  | .float _ => true
  | .pyBool _ => true
  | _ => false

/-- The exact rational value of a numeric `PyVal`. -/
def toRat : PyVal → ℚ
  | .int i => (i : ℚ)
  | .float q => q
  | .pyBool b => if b then 1 else 0
  | _ => 0

/-- Decimal digit characters of a natural number, most significant first
(`"0"` for zero). -/
def natDigitsChars (n : ℕ) : List Char :=
  if n = 0 then ['0'] else ((Nat.digits 10 n).reverse.map Nat.digitChar)

/-- Exactly `dp` decimal digit characters of `m` (the fractional digits of a
fixed-point rendering), most significant first, left-padded with zeros. -/
def fracChars : ℕ → ℕ → List Char
  | _, 0 => []
  | m, dp + 1 => fracChars (m / 10) dp ++ [Nat.digitChar (m % 10)]

/-- Python's fixed-point rendering `f"{x:.{dp}f}"` on an exact rational. -/
def formatFixed (q : ℚ) (dp : ℕ) : String :=
  let n : ℕ := (round (|q| * (10 : ℚ) ^ dp)).toNat
  let sign := if q < 0 then ("-") else ("")
  let intPart := String.mk (natDigitsChars (n / 10 ^ dp))
  let fracPart := if dp = 0 then ("") else String.mk ('.' :: fracChars (n % 10 ^ dp) dp)
  sign ++ intPart ++ fracPart

/-- Function `safe_format` from `Options_app.py`:
`if isinstance(value, (int, float)): return f"{value:.{decimal_places}f}"`,
otherwise `"N/A"`. -/
def safe_format (value : PyVal) (decimal_places : ℕ) : String :=
  if isinstanceNum value then formatFixed (toRat value) decimal_places else ("N/A")

/-- The `suffixes` list of `format_value`. -/
def suffixes : List String := ["", "K", "M", "B", "T"]

/-- The rescaling `while` loop of `format_value`:
`while value >= 1000 and suffix_index < len(suffixes) - 1: value /= 1000;
suffix_index += 1`.  Returns the final `(value, suffix_index)` pair. -/
def formatValueLoop (value : ℚ) (suffix_index : ℕ) : ℚ × ℕ :=
  if 1000 ≤ value ∧ suffix_index < 4 then
    formatValueLoop (value / 1000) (suffix_index + 1)
  else (value, suffix_index)
termination_by 4 - suffix_index
decreasing_by omega

/-- Function `format_value` from `Options_app.py`: rescale a numeric value by factors
of 1000 and render `f"${value:.1f}{suffixes[suffix_index]}"`; non-numeric
values give `"N/A"`. -/
def format_value (value : PyVal) : String :=
  if isinstanceNum value then
    let p := formatValueLoop (toRat value) 0
    "$" ++ formatFixed p.1 1 ++ suffixes.getD p.2 ("")
  else ("N/A")

/-- The `period` dispatch of `display_stock_data` (lines 45–58): the
`(period, interval)` argument pair passed to `stock.history`, or `none` when
the selected period matches no branch (then no history request is made and
the later use of the unbound `history` variable raises). -/
def periodRequest (period : String) : Option (String × String) :=
  if period = "1D" then some ("1d", "1h")
  else if period = "5D" then some ("5d", "1d")
  else if period = "1M" then some ("1mo", "1d")
  else if period = "6M" then some ("6mo", "1wk")
  else if period = "YTD" then some ("ytd", "1mo")
  else if period = "1Y" then some ("1y", "1mo")
  else if period = "5Y" then some ("5y", "3mo")
  else none

/-- One contract row of a yfinance option chain.  A missing (NaN) numeric
entry is modelled as `none`. -/
structure OptionContract where
  contractSymbol : String
  strike : ℚ
  lastPrice : ℚ
  volume : Option ℚ
  openInterest : Option ℚ
  impliedVolatility : Option ℚ
  deriving DecidableEq, Repr

/-- Boolean comparison underlying `sort_values(by="volume", ascending=False)`:
`a` may come before `b` iff `a`'s volume is ≥ `b`'s, with undefined (NaN)
volumes placed last (pandas' default `na_position="last"`). -/
def volGEb (a b : OptionContract) : Bool :=
  match a.volume, b.volume with
  | some x, some y => decide (y ≤ x)
  | some _, none => true
  | none, some _ => false
  | none, none => true

/-- The ordering of `sort_values(by="volume", ascending=False)` as a
relation. -/
def volGE (a b : OptionContract) : Prop := volGEb a b = true

instance : DecidableRel volGE := fun a b => inferInstanceAs (Decidable (_ = true))

instance : IsTotal OptionContract volGE := by
  constructor
  intro a b
  cases hx : a.volume <;> cases hy : b.volume <;>
    simp [volGE, volGEb, hx, hy]
  exact le_total _ _

instance : IsTrans OptionContract volGE := by
  constructor
  intro a b c hab hbc
  cases hx : a.volume <;> cases hy : b.volume <;> cases hz : c.volume <;>
    simp_all [volGE, volGEb] <;> exact le_trans hbc hab

/-- Model of `options_data.sort_values(by="volume", ascending=False)`: sorting the
contract rows by descending volume (NaN last).  pandas' default quicksort is
unstable, so any `volGE`-sort is a faithful model; we use insertion sort. -/
def sortByVolumeDesc (rows : List OptionContract) : List OptionContract :=
  List.insertionSort volGE rows

/-- A cell of a rendered dataframe. -/
inductive PyCell where
  | str (s : String)
  | num (q : ℚ)
  | onum (q : Option ℚ)
  | val (v : PyVal)
  deriving DecidableEq, Repr

/-- The columns the app selects for the options table (line 121):
`options_data[['contractSymbol', 'strike', 'lastPrice', 'volume']]`. -/
def displayedOptionColumns : List String :=
  ["contractSymbol", "strike", "lastPrice", "volume"]

/-- The cells of one displayed row of the options table: the projection of a
contract onto the four selected columns. -/
def displayRow (c : OptionContract) : List PyCell :=
  [PyCell.str c.contractSymbol, PyCell.num c.strike,
   PyCell.num c.lastPrice, PyCell.onum c.volume]

/-- The rows of the rendered options dataframe: the volume-sorted contracts,
each projected onto the four displayed columns. -/
def optionsTable (rows : List OptionContract) : List (List PyCell) :=
  (sortByVolumeDesc rows).map displayRow

/-- Model of `options_data.iloc[0]` after the descending-volume sort (guarded by
`if not options_data.empty`): the contract reported as "Highest Volume". -/
def highestOption (rows : List OptionContract) : Option OptionContract :=
  (sortByVolumeDesc rows).head?

/-- An option chain for one expiration date. -/
structure OptionChain where
  calls : List OptionContract
  puts : List OptionContract
  deriving Repr

/-- One item rendered onto the page. -/
inductive RenderItem where
  | lineChart (closes : List ℚ)
  | table (header : List String) (rows : List (String × PyCell))
  | frame (header : List String) (rows : List (List PyCell))
  | text (s : String)
  | errorBox (s : String)
  deriving Repr

/-- Python's `try: body except Exception as e: handler`, where the handler
itself returns normally (here: it renders an error box). -/
def pyTry {α : Type} (body : Except String α) (handler : String → α) :
    Except String α :=
  match body with
  | .ok a => .ok a
  | .error e => .ok (handler e)

/-- Model of `info.get(key, default)` on the yfinance info dictionary. -/
def dictGet (d : List (String × PyVal)) (key : String) (default : PyVal) :
    PyVal :=
  match d.find? (fun kv => kv.1 == key) with
  | some kv => kv.2
  | none => default

/-- The data-provider boundary of `display_stock_data` for one ticker:
`stock.info` and `stock.history(period, interval)`, each of which may raise
(provider unreachable, unknown ticker, …). -/
structure StockProvider where
  info : Except String (List (String × PyVal))
  history : String → String → Except String (List ℚ)

/-- Rendering of `{highest_option['volume']}` inside the f-string. -/
def optRatStr : Option ℚ → String
  | none => "nan"
  | some q => formatFixed q 1

/-- The `try`-body of `display_stock_data` (lines 40–103): fetch `info`,
fetch history at the resolution selected by `period` (an unmatched period
leaves `history` unbound, so line 60 raises a `NameError`), then build the
chart and the two info tables. -/
def displayStockDataBody (p : StockProvider) (period : String) :
    Except String (List RenderItem) := do
  let info ← p.info
  let closes ← match periodRequest period with
    | some req => p.history req.1 req.2
    | none => Except.error ("name 'history' is not defined")
  let country := dictGet info ("country") (PyVal.str ("N/A"))
  let sector := dictGet info ("sector") (PyVal.str ("N/A"))
  let industry := dictGet info ("industry") (PyVal.str ("N/A"))
  let market_cap := format_value (dictGet info ("marketCap") (PyVal.str ("N/A")))
  let ent_value := format_value (dictGet info ("enterpriseValue") (PyVal.str ("N/A")))
  let employees := dictGet info ("fullTimeEmployees") (PyVal.str ("N/A"))
  let current_price := safe_format (dictGet info ("currentPrice") .pyNone) 2
  let prev_close := safe_format (dictGet info ("previousClose") .pyNone) 2
  let day_high := safe_format (dictGet info ("dayHigh") .pyNone) 2
  let day_low := safe_format (dictGet info ("dayLow") .pyNone) 2
  let ft_week_high := safe_format (dictGet info ("fiftyTwoWeekHigh") .pyNone) 2
  let ft_week_low := safe_format (dictGet info ("fiftyTwoWeekLow") .pyNone) 2
  Except.ok
    [RenderItem.lineChart closes,
     RenderItem.table ["Stock Info", "Value"]
       [("Country", .val country), ("Sector", .val sector),
        ("Industry", .val industry), ("Market Cap", .str market_cap),
        ("Enterprise Value", .str ent_value), ("Employees", .val employees)],
     RenderItem.table ["Price Info", "Value"]
       [("Current Price", .str ("$" ++ current_price)),
        ("Previous Close", .str ("$" ++ prev_close)),
        ("Day High", .str ("$" ++ day_high)),
        ("Day Low", .str ("$" ++ day_low)),
        ("52 Week High", .str ("$" ++ ft_week_high)),
        ("52 Week Low", .str ("$" ++ ft_week_low))]]

/-- Function `display_stock_data` (lines 39–106): the `try`-body wrapped in
`except Exception as e: st.error(f"An error occurred: {e}")`. -/
def display_stock_data (p : StockProvider) (period : String) :
    Except String (List RenderItem) :=
  pyTry (displayStockDataBody p period)
    (fun e => [RenderItem.errorBox ("An error occurred: " ++ e)])

/-- The data-provider boundary of `display_options_data` for one ticker:
`stock.options` and `stock.option_chain(expiration_date)`. -/
structure OptionsProvider where
  expirations : Except String (List String)
  chain : String → Except String OptionChain

/-- The `try`-body of `display_options_data` (lines 110–125).  The
expiration-date selectbox is modelled by the oracle `choose` (Streamlit
returns the first entry by default, `None` when the list is empty). -/
def displayOptionsDataBody (p : OptionsProvider) (option_type : String)
    (choose : List String → Option String) : Except String (List RenderItem) := do
  let dates ← p.expirations
  match choose dates with
  | some expiration_date => do
    let chain ← p.chain expiration_date
    let rows := if option_type = "Call" then chain.calls else chain.puts
    let base :=
      [RenderItem.text ("**" ++ option_type ++ "s for " ++ expiration_date ++ "**"),
       RenderItem.frame displayedOptionColumns (optionsTable rows)]
    match highestOption rows with
    | some highest =>
      Except.ok (base ++
        [RenderItem.text ("**Highest Volume " ++ option_type ++ " Option**: " ++
          highest.contractSymbol ++ " - Volume: " ++ optRatStr highest.volume)])
    | none => Except.ok base
  | none => Except.ok []

/-- Function `display_options_data` (lines 109–128): the `try`-body wrapped in
`except Exception as e:
st.error(f"An error occurred while fetching options data: {e}")`. -/
def display_options_data (p : OptionsProvider) (option_type : String)
    (choose : List String → Option String) : Except String (List RenderItem) :=
  pyTry (displayOptionsDataBody p option_type choose)
    (fun e => [RenderItem.errorBox ("An error occurred while fetching options data: " ++ e)])

/-- Python's `str.isspace` characters that `str.strip()` removes (ASCII). -/
def pyIsSpace (c : Char) : Bool :=
  c ∈ [' ', '\t', '\n', '\x0b', '\x0c', '\r']

/-- Python's `ticker.strip()`: remove leading and trailing whitespace. -/
def pyStrip (s : String) : String :=
  String.mk (((s.data.dropWhile pyIsSpace).reverse.dropWhile pyIsSpace).reverse)

/-- Which display procedure the top level invokes. -/
inductive DisplayCall where
  | stock (ticker period : String)
  | options (ticker option_type : String)
  deriving DecidableEq, Repr

/-- The top-level dispatch (lines 131–135): `if ticker.strip():` guards both
display calls; `data_type` selects between them (`show_options` is exactly
`data_type == "Options Data"`). -/
def mainDispatch (ticker period data_type option_type : String) :
    Option DisplayCall :=
  if pyStrip ticker ≠ "" then
    if data_type = "Stock Data" then some (.stock ticker period)
    else if data_type = "Options Data" then some (.options ticker option_type)
    else none
  else none

/-- Modelled from the spec: `simple_moving_average(series, window)` (the
engine function is absent from `src/`; only this dashboard revision is
there).  Arithmetic mean of `close` over the trailing `window` bars;
positions with fewer than `window` bars available are "no value" (`none`),
never the number zero. -/
def simple_moving_average (closes : List ℚ) (window : ℕ) : List (Option ℚ) :=
  (List.range closes.length).map fun i =>
    if i + 1 < window then none
    else some (((closes.take (i + 1)).drop (i + 1 - window)).sum / window)

/-- Modelled from the spec: the standard normal CDF Φ used by
`black_scholes_greeks` (absent from `src/`).  By the symmetry of the
Gaussian density, Φ(x) = 1/2 + (1/√(2π))·∫₀ˣ e^(−t²/2) dt. -/
noncomputable def normalCdf (x : ℝ) : ℝ :=
  1 / 2 + (∫ t in (0 : ℝ)..x, Real.exp (-t ^ 2 / 2)) / Real.sqrt (2 * Real.pi)

/-- Modelled from the spec: d1 = (ln(S/K) + (r + σ²/2)·T) / (σ·√T). -/
noncomputable def d1 (S K T r σ : ℝ) : ℝ :=
  (Real.log (S / K) + (r + σ ^ 2 / 2) * T) / (σ * Real.sqrt T)

/-- The `option_side` argument of `black_scholes_greeks`. -/
inductive OptionSide where
  | call
  | put
  deriving DecidableEq, Repr

/-- Modelled from the spec: the `delta` component of
`black_scholes_greeks(spot, strike, time_to_expiry_years, risk_free_rate,
implied_vol, option_side)` (absent from `src/`): Φ(d1) for a call,
Φ(d1) − 1 for a put. -/
noncomputable def bsDelta (S K T r σ : ℝ) : OptionSide → ℝ
  | .call => normalCdf (d1 S K T r σ)
  | .put => normalCdf (d1 S K T r σ) - 1

/-- Number of characters after the last `'.'` of a rendered string (the
count of displayed decimal places). -/
def decimalsOf (s : String) : ℕ :=
  (s.data.reverse.takeWhile (fun c => c != '.')).length

/-- Whether a modelled Python call returned normally (`ok`) rather than
raising. -/
def isOkE {α : Type} : Except String α → Bool
  | .ok _ => true
  | .error _ => false

/-- The Gaussian integral ∫₀^0.35 e^(−t²/2) dt appearing in Φ(0.35). -/
noncomputable def gaussInt : ℝ :=
  ∫ t in (0 : ℝ)..0.35, Real.exp (-t ^ 2 / 2)

/-! ## Helper lemmas -/

lemma volGE_refl (a : OptionContract) : volGE a a := by
  cases h : a.volume <;> simp [volGE, volGEb, h]

lemma pyTry_ok {α : Type} (body : Except String α) (handler : String → α) :
    isOkE (pyTry body handler) = true := by
  cases body <;> rfl

lemma formatValueLoop_step (q : ℚ) (i : ℕ) (h1 : 1000 ≤ q) (h2 : i < 4) :
    formatValueLoop q i = formatValueLoop (q / 1000) (i + 1) := by
  rw [formatValueLoop]
  rw [if_pos ⟨h1, h2⟩]

lemma formatValueLoop_exit (q : ℚ) (i : ℕ) (h : ¬(1000 ≤ q ∧ i < 4)) :
    formatValueLoop q i = (q, i) := by
  rw [formatValueLoop]
  rw [if_neg h]

lemma formatValueLoop_index_bounds :
    ∀ (n : ℕ) (q : ℚ) (i : ℕ), 4 - i ≤ n → i ≤ 4 →
      i ≤ (formatValueLoop q i).2 ∧ (formatValueLoop q i).2 ≤ 4 := by
  intro n
  induction n with
  | zero =>
    intro q i hn hi
    rw [formatValueLoop_exit q i (fun hcon => absurd hcon.2 (by omega))]
    exact ⟨le_refl i, hi⟩
  | succ n ih =>
    intro q i hn hi
    by_cases h : 1000 ≤ q ∧ i < 4
    · rw [formatValueLoop_step q i h.1 h.2]
      have hih := ih (q / 1000) (i + 1) (by omega) (by omega)
      exact ⟨le_trans (Nat.le_succ i) hih.1, hih.2⟩
    · rw [formatValueLoop_exit q i h]
      exact ⟨le_refl i, hi⟩

lemma digitChar_ne_reserved (n : ℕ) :
    Nat.digitChar n ≠ 'N' ∧ Nat.digitChar n ≠ '.' := by
  rcases lt_or_ge n 16 with h | h
  · interval_cases n <;> exact ⟨by decide, by decide⟩
  · have hstar : Nat.digitChar n = '*' := by
      unfold Nat.digitChar
      repeat rw [if_neg (show ¬ _ by omega)]
    rw [hstar]
    exact ⟨by decide, by decide⟩

lemma fracChars_length : ∀ (dp m : ℕ), (fracChars m dp).length = dp := by
  intro dp
  induction dp with
  | zero => intro m; rfl
  | succ dp ih => intro m; simp [fracChars, ih]

lemma fracChars_ne_reserved :
    ∀ (dp m : ℕ), ∀ c ∈ fracChars m dp, c ≠ 'N' ∧ c ≠ '.' := by
  intro dp
  induction dp with
  | zero => intro m c hc; cases hc
  | succ dp ih =>
    intro m c hc
    rw [fracChars] at hc
    rcases List.mem_append.mp hc with h | h
    · exact ih (m / 10) c h
    · rw [List.mem_singleton] at h
      rw [h]
      exact digitChar_ne_reserved _

lemma natDigitsChars_ne_reserved (n : ℕ) :
    ∀ c ∈ natDigitsChars n, c ≠ 'N' ∧ c ≠ '.' := by
  intro c hc
  rw [natDigitsChars] at hc
  by_cases h : n = 0
  · rw [if_pos h, List.mem_singleton] at hc
    rw [hc]
    exact ⟨by decide, by decide⟩
  · rw [if_neg h, List.mem_map] at hc
    obtain ⟨d, hd, hcd⟩ := hc
    rw [← hcd]
    exact digitChar_ne_reserved d

lemma formatFixed_data (q : ℚ) (dp : ℕ) (h : 0 < dp) :
    (formatFixed q dp).data =
      (if q < 0 then ['-'] else []) ++
      natDigitsChars ((round (|q| * (10 : ℚ) ^ dp)).toNat / 10 ^ dp) ++
      ('.' :: fracChars ((round (|q| * (10 : ℚ) ^ dp)).toNat % 10 ^ dp) dp) := by
  simp only [formatFixed, String.data_append]
  rw [if_neg (show ¬ dp = 0 by omega)]
  by_cases hq : q < 0
  · rw [if_pos hq, if_pos hq]
  · rw [if_neg hq, if_neg hq]

lemma formatFixed_char_not_N (q : ℚ) (dp : ℕ) :
    ∀ c ∈ (formatFixed q dp).data, c ≠ 'N' := by
  intro c hc
  simp only [formatFixed, String.data_append] at hc
  rcases List.mem_append.mp hc with hc1 | hc1
  · rcases List.mem_append.mp hc1 with hc2 | hc2
    · by_cases hq : q < 0
      · rw [if_pos hq] at hc2
        have : c = '-' := by simpa using hc2
        rw [this]
        decide
      · rw [if_neg hq] at hc2
        simp at hc2
    · exact (natDigitsChars_ne_reserved _ c hc2).1
  · by_cases hdp : dp = 0
    · rw [if_pos hdp] at hc1
      simp at hc1
    · rw [if_neg hdp] at hc1
      rcases List.mem_cons.mp hc1 with h | h
      · rw [h]
        decide
      · exact (fracChars_ne_reserved dp _ c h).1

lemma formatFixed_ne_NA (q : ℚ) (dp : ℕ) : formatFixed q dp ≠ "N/A" := by
  intro h
  have hN : ('N' : Char) ∈ (formatFixed q dp).data := by
    rw [h]
    decide
  exact formatFixed_char_not_N q dp 'N' hN rfl

lemma takeWhile_append_stop (p : Char → Bool) (l1 l2 : List Char) (a : Char)
    (h1 : ∀ c ∈ l1, p c = true) (ha : p a = false) :
    List.takeWhile p (l1 ++ a :: l2) = l1 := by
  induction l1 with
  | nil => simp [List.takeWhile_cons, ha]
  | cons x xs ih =>
    simp [List.takeWhile_cons, h1 x (List.mem_cons_self x xs),
      ih (fun c hc => h1 c (List.mem_cons_of_mem x hc))]

lemma decimalsOf_formatFixed (q : ℚ) (dp : ℕ) (h : 0 < dp) :
    decimalsOf (formatFixed q dp) = dp := by
  rw [decimalsOf, formatFixed_data q dp h]
  generalize (round (|q| * (10 : ℚ) ^ dp)).toNat % 10 ^ dp = m
  generalize (round (|q| * (10 : ℚ) ^ dp)).toNat / 10 ^ dp = k
  generalize (if q < 0 then ['-'] else []) = S
  rw [show (S ++ natDigitsChars k ++ ('.' :: fracChars m dp)).reverse
      = (fracChars m dp).reverse ++ ('.' :: (S ++ natDigitsChars k).reverse) by
    rw [List.reverse_append, List.reverse_cons, List.append_assoc,
      List.singleton_append]]
  rw [takeWhile_append_stop _ _ _ _
    (fun c hc => bne_iff_ne.mpr
      (fracChars_ne_reserved dp m c (List.mem_reverse.mp hc)).2)
    (by decide)]
  rw [List.length_reverse, fracChars_length]

open MeasureTheory in
lemma exp_neg_sq_bounds (t : ℝ) (h0 : 0 ≤ t) (h1 : t ≤ 0.35) :
    1 - t ^ 2 / 2 + t ^ 4 / 8 - t ^ 6 / 36 ≤ Real.exp (-t ^ 2 / 2) ∧
    Real.exp (-t ^ 2 / 2) ≤ 1 - t ^ 2 / 2 + t ^ 4 / 8 + t ^ 6 / 36 := by
  have ht2 : t ^ 2 ≤ 1 := by nlinarith
  have hx : |(-t ^ 2 / 2)| ≤ 1 := by
    rw [abs_le]
    constructor <;> nlinarith [sq_nonneg t]
  have hb := @Real.exp_bound (-t ^ 2 / 2) hx 3 (by norm_num)
  have hsum : ∑ m ∈ Finset.range 3, (-t ^ 2 / 2) ^ m / m.factorial
      = 1 - t ^ 2 / 2 + t ^ 4 / 8 := by
    rw [Finset.sum_range_succ, Finset.sum_range_succ, Finset.sum_range_one]
    norm_num [Nat.factorial]
    ring
  have habs : |(-t ^ 2 / 2)| = t ^ 2 / 2 := by
    rw [abs_of_nonpos (by nlinarith [sq_nonneg t])]
    ring
  rw [hsum, habs] at hb
  have hfac : ((3 : ℕ).succ : ℝ) / ((3 : ℕ).factorial * (3 : ℕ)) = 2 / 9 := by
    norm_num [Nat.factorial]
  rw [hfac] at hb
  have hb' := abs_le.mp hb
  have hcube : (t ^ 2 / 2) ^ 3 * (2 / 9) = t ^ 6 / 36 := by ring
  constructor <;> nlinarith [hb'.1, hb'.2]

open MeasureTheory in
lemma gaussInt_bounds :
    (0.3429829 : ℝ) ≤ gaussInt ∧ gaussInt ≤ (0.3429881 : ℝ) := by
  have i1 : IntervalIntegrable (fun _ : ℝ => (1 : ℝ)) volume 0 0.35 :=
    continuous_const.intervalIntegrable _ _
  have i2 : IntervalIntegrable (fun t : ℝ => t ^ 2 / 2) volume 0 0.35 :=
    ((continuous_pow 2).div_const 2).intervalIntegrable _ _
  have i4 : IntervalIntegrable (fun t : ℝ => t ^ 4 / 8) volume 0 0.35 :=
    ((continuous_pow 4).div_const 8).intervalIntegrable _ _
  have i6 : IntervalIntegrable (fun t : ℝ => t ^ 6 / 36) volume 0 0.35 :=
    ((continuous_pow 6).div_const 36).intervalIntegrable _ _
  have iexp : IntervalIntegrable (fun t : ℝ => Real.exp (-t ^ 2 / 2))
      volume 0 0.35 :=
    (Real.continuous_exp.comp
      (((continuous_pow 2).neg).div_const 2)).intervalIntegrable _ _
  have e2 : (∫ t in (0:ℝ)..0.35, t ^ 2 / 2) = 0.35 ^ 3 / 6 := by
    rw [intervalIntegral.integral_div, integral_pow]
    norm_num
  have e4 : (∫ t in (0:ℝ)..0.35, t ^ 4 / 8) = 0.35 ^ 5 / 40 := by
    rw [intervalIntegral.integral_div, integral_pow]
    norm_num
  have e6 : (∫ t in (0:ℝ)..0.35, t ^ 6 / 36) = 0.35 ^ 7 / 252 := by
    rw [intervalIntegral.integral_div, integral_pow]
    norm_num
  have e1 : (∫ _ in (0:ℝ)..0.35, (1:ℝ)) = 0.35 := by
    simp
  have elo : (∫ t in (0:ℝ)..0.35, (1 - t ^ 2 / 2 + t ^ 4 / 8 - t ^ 6 / 36))
      = 0.35 - 0.35 ^ 3 / 6 + 0.35 ^ 5 / 40 - 0.35 ^ 7 / 252 := by
    rw [intervalIntegral.integral_sub ((i1.sub i2).add i4) i6,
      intervalIntegral.integral_add (i1.sub i2) i4,
      intervalIntegral.integral_sub i1 i2, e1, e2, e4, e6]
  have ehi : (∫ t in (0:ℝ)..0.35, (1 - t ^ 2 / 2 + t ^ 4 / 8 + t ^ 6 / 36))
      = 0.35 - 0.35 ^ 3 / 6 + 0.35 ^ 5 / 40 + 0.35 ^ 7 / 252 := by
    rw [intervalIntegral.integral_add ((i1.sub i2).add i4) i6,
      intervalIntegral.integral_add (i1.sub i2) i4,
      intervalIntegral.integral_sub i1 i2, e1, e2, e4, e6]
  have hmono_lo :
      (∫ t in (0:ℝ)..0.35, (1 - t ^ 2 / 2 + t ^ 4 / 8 - t ^ 6 / 36))
        ≤ gaussInt := by
    apply intervalIntegral.integral_mono_on (by norm_num)
      (((i1.sub i2).add i4).sub i6) iexp
    intro x hx
    exact (exp_neg_sq_bounds x hx.1 hx.2).1
  have hmono_hi : gaussInt
      ≤ ∫ t in (0:ℝ)..0.35, (1 - t ^ 2 / 2 + t ^ 4 / 8 + t ^ 6 / 36) := by
    apply intervalIntegral.integral_mono_on (by norm_num) iexp
      (((i1.sub i2).add i4).add i6)
    intro x hx
    exact (exp_neg_sq_bounds x hx.1 hx.2).2
  rw [elo] at hmono_lo
  rw [ehi] at hmono_hi
  constructor
  · exact le_trans (by norm_num) hmono_lo
  · exact le_trans hmono_hi (by norm_num)

lemma sqrt_two_pi_bounds :
    (2.50662 : ℝ) < Real.sqrt (2 * Real.pi) ∧
    Real.sqrt (2 * Real.pi) < (2.50663 : ℝ) := by
  constructor
  · rw [Real.lt_sqrt (by norm_num)]
    nlinarith [Real.pi_gt_d6]
  · rw [Real.sqrt_lt' (by norm_num)]
    nlinarith [Real.pi_lt_d6]

/-! ## Claim theorems -/

/-- C5: `display_stock_data` requests history at exactly one fixed bar
resolution determined by the period — 1D → hourly bars over 1 day, 5D →
daily bars over 5 days, 1M → daily bars over 1 month, 6M → weekly bars over
6 months, YTD → monthly bars year-to-date, 1Y → monthly bars over 1 year,
5Y → 3-month bars over 5 years — and any period outside these seven values
produces no history request. -/
theorem period_request_resolution :
    periodRequest ("1D") = some ("1d", "1h") ∧
    periodRequest ("5D") = some ("5d", "1d") ∧
    periodRequest ("1M") = some ("1mo", "1d") ∧
    periodRequest ("6M") = some ("6mo", "1wk") ∧
    periodRequest ("YTD") = some ("ytd", "1mo") ∧
    periodRequest ("1Y") = some ("1y", "1mo") ∧
    periodRequest ("5Y") = some ("5y", "3mo") ∧
    ∀ p : String,
      p ∉ (["1D", "5D", "1M", "6M", "YTD", "1Y", "5Y"] : List String) →
      periodRequest p = none := by
  refine ⟨by decide, by decide, by decide, by decide, by decide, by decide,
    by decide, ?_⟩
  intro p hp
  simp only [List.mem_cons, List.not_mem_nil, or_false, not_or] at hp
  obtain ⟨h1, h2, h3, h4, h5, h6, h7⟩ := hp
  simp [periodRequest, h1, h2, h3, h4, h5, h6, h7]

/-- C5 witness: the unsupported period `"2Y"` produces no history request. -/
theorem period_request_resolution_witness : periodRequest ("2Y") = none :=
  period_request_resolution.2.2.2.2.2.2.2 ("2Y") (by decide)

/-- C10: a ticker that is empty or consists only of whitespace characters
invokes neither `display_stock_data` nor `display_options_data`. -/
theorem blank_ticker_no_display (ticker period data_type option_type : String)
    (h : ∀ c ∈ ticker.data, pyIsSpace c = true) :
    mainDispatch ticker period data_type option_type = none := by
  have h1 : ticker.data.dropWhile pyIsSpace = [] :=
    List.dropWhile_eq_nil_iff.mpr h
  have hstrip : pyStrip ticker = "" := by
    simp [pyStrip, h1]
  simp [mainDispatch, hstrip]

/-- C10 witness: an all-whitespace ticker dispatches no display call. -/
theorem blank_ticker_no_display_witness :
    mainDispatch (" \t ") ("1M") ("Stock Data") ("Call") = none :=
  blank_ticker_no_display (" \t ") ("1M") ("Stock Data") ("Call") (by decide)

/-- C2: for every series shorter than the window, every index of
`simple_moving_average` is "no value" (`none`); more generally every leading
position with fewer than `window` bars available is `none` — never the
number zero. -/
theorem sma_insufficient_data (closes : List ℚ) (window : ℕ) :
    (closes.length < window →
      ∀ x ∈ simple_moving_average closes window, x = none) ∧
    (∀ i : ℕ, i < closes.length → i + 1 < window →
      (simple_moving_average closes window)[i]? = some none) := by
  constructor
  · intro hlen x hx
    simp only [simple_moving_average, List.mem_map, List.mem_range] at hx
    obtain ⟨i, hi, hfx⟩ := hx
    rw [← hfx, if_pos (by omega)]
  · intro i hilen hiwin
    simp only [simple_moving_average, List.getElem?_map,
      List.getElem?_range hilen]
    simp [hiwin]

/-- C2 witness: a two-bar series with window 5 yields `none` everywhere. -/
theorem sma_insufficient_data_witness :
    (simple_moving_average [3, 4] 5)[0]? = some none ∧
    (simple_moving_average [3, 4] 5)[1]? = some none :=
  ⟨(sma_insufficient_data [3, 4] 5).2 0 (by simp) (by norm_num),
   (sma_insufficient_data [3, 4] 5).2 1 (by simp) (by norm_num)⟩

/-- C6 counterexample: the displayed options table selects only four
columns, so for the concrete contract
`⟨"SYM", 100, 5, some 3, some 7, some 9⟩` neither its `openInterest`
value (7) nor its `impliedVolatility` value (9) appears in its displayed
row, and the two column names are absent from the table header. -/
theorem options_table_omits_two_fields :
    ("openInterest" ∉ displayedOptionColumns) ∧
    ("impliedVolatility" ∉ displayedOptionColumns) ∧
    (PyCell.onum (some 7) ∉
      displayRow ⟨"SYM", 100, 5, some 3, some 7, some 9⟩) ∧
    (PyCell.onum (some 9) ∉
      displayRow ⟨"SYM", 100, 5, some 3, some 7, some 9⟩) :=
  ⟨by decide, by decide, by decide, by decide⟩

/-- C6 amended: the options-chain tabulation presents, for every contract of
the selected side, exactly the four fields `contractSymbol`, `strike`,
`lastPrice` and `volume`; `openInterest` and `impliedVolatility` are not
displayed. -/
theorem options_table_presents_four_fields (rows : List OptionContract) :
    displayedOptionColumns =
      ["contractSymbol", "strike", "lastPrice", "volume"] ∧
    (∀ c ∈ rows, displayRow c ∈ optionsTable rows) ∧
    (∀ row ∈ optionsTable rows, ∃ c ∈ rows,
      row = [PyCell.str c.contractSymbol, PyCell.num c.strike,
             PyCell.num c.lastPrice, PyCell.onum c.volume]) := by
  refine ⟨rfl, ?_, ?_⟩
  · intro c hc
    have hmem : c ∈ sortByVolumeDesc rows := by
      rw [sortByVolumeDesc, List.mem_insertionSort]
      exact hc
    exact List.mem_map_of_mem _ hmem
  · intro row hrow
    obtain ⟨c, hc, hrc⟩ := List.mem_map.mp hrow
    refine ⟨c, ?_, ?_⟩
    · rw [sortByVolumeDesc, List.mem_insertionSort] at hc
      exact hc
    · rw [← hrc]
      rfl

/-- C6 amended, witness: a concrete contract appears in its table projected
onto the four displayed fields. -/
theorem options_table_presents_four_fields_witness :
    displayRow ⟨"SYM", 100, 5, some 3, some 7, some 9⟩ ∈
      optionsTable [⟨"SYM", 100, 5, some 3, some 7, some 9⟩] :=
  (options_table_presents_four_fields
      [⟨"SYM", 100, 5, some 3, some 7, some 9⟩]).2.1
    ⟨"SYM", 100, 5, some 3, some 7, some 9⟩ (by simp)

/-- C9: whenever the options table is non-empty, the contract the app
reports as "Highest Volume" (the head of the descending-volume sort) is
volume-maximal: `volGE top c` states that `top`'s volume is defined and ≥
`c`'s whenever `c`'s volume is defined. -/
theorem highest_volume_is_max (rows : List OptionContract)
    (top c : OptionContract) (htop : highestOption rows = some top)
    (hc : c ∈ rows) : volGE top c := by
  have hsorted : List.Sorted volGE (sortByVolumeDesc rows) :=
    List.sorted_insertionSort volGE rows
  have hmem : c ∈ sortByVolumeDesc rows := by
    rw [sortByVolumeDesc, List.mem_insertionSort]
    exact hc
  obtain ⟨l, hl⟩ : ∃ l, sortByVolumeDesc rows = top :: l := by
    cases hs : sortByVolumeDesc rows with
    | nil =>
      rw [highestOption, hs] at htop
      cases htop
    | cons a l =>
      rw [highestOption, hs] at htop
      simp only [List.head?_cons, Option.some_inj] at htop
      subst htop
      exact ⟨l, rfl⟩
  rw [hl] at hmem hsorted
  rcases List.mem_cons.mp hmem with heq | htail
  · rw [heq]
    exact volGE_refl top
  · exact List.rel_of_sorted_cons hsorted c htail

/-- C9 witness: in a concrete two-contract table the reported
highest-volume contract dominates the other. -/
theorem highest_volume_is_max_witness :
    volGE ⟨"B", 1, 1, some 9, none, none⟩ ⟨"A", 1, 1, some 5, none, none⟩ :=
  highest_volume_is_max
    [⟨"A", 1, 1, some 5, none, none⟩, ⟨"B", 1, 1, some 9, none, none⟩]
    ⟨"B", 1, 1, some 9, none, none⟩ ⟨"A", 1, 1, some 5, none, none⟩
    (by decide) (by decide)

/-- C4: `display_stock_data` and `display_options_data` never propagate an
exception to their caller: whatever the provider and widget behaviour (any
fetch may fail), both return normally, and a failing fetch is reported as an
on-page error message. -/
theorem display_functions_never_raise :
    (∀ (p : StockProvider) (period : String),
      isOkE (display_stock_data p period) = true) ∧
    (∀ (p : OptionsProvider) (option_type : String)
      (choose : List String → Option String),
      isOkE (display_options_data p option_type choose) = true) ∧
    (∀ msg period,
      display_stock_data ⟨.error msg, fun _ _ => .error msg⟩ period =
        .ok [RenderItem.errorBox ("An error occurred: " ++ msg)]) ∧
    (∀ msg option_type choose,
      display_options_data ⟨.error msg, fun _ => .error msg⟩ option_type
          choose =
        .ok [RenderItem.errorBox
          ("An error occurred while fetching options data: " ++ msg)]) :=
  ⟨fun p period => pyTry_ok _ _,
   fun p option_type choose => pyTry_ok _ _,
   fun msg period => rfl,
   fun msg option_type choose => rfl⟩

/-- C8: the `format_value` rescaling loop strictly increases its suffix
index, which never exceeds the last index (4) of the suffix list, so the
loop runs at most four iterations (the definition's decreasing measure
`4 - suffix_index` is exactly this argument); every numeric input ≥ 10^15
is rendered with the final "T" suffix, and every non-numeric input returns
"N/A". -/
theorem format_value_loop_bounded :
    (∀ (q : ℚ) (i : ℕ), i ≤ 4 →
      i ≤ (formatValueLoop q i).2 ∧ (formatValueLoop q i).2 ≤ 4) ∧
    (∀ q : ℚ, (10 : ℚ) ^ 15 ≤ q → formatValueLoop q 0 = (q / 1000 ^ 4, 4)) ∧
    (∀ v : PyVal, isinstanceNum v = true → (10 : ℚ) ^ 15 ≤ toRat v →
      format_value v = "$" ++ formatFixed (toRat v / 1000 ^ 4) 1 ++ "T") ∧
    (∀ v : PyVal, isinstanceNum v = false → format_value v = "N/A") := by
  have hloop : ∀ q : ℚ, (10 : ℚ) ^ 15 ≤ q →
      formatValueLoop q 0 = (q / 1000 ^ 4, 4) := by
    intro q hq
    have hq' : (1000000000000000 : ℚ) ≤ q := by
      have : ((10 : ℚ) ^ 15) = 1000000000000000 := by norm_num
      linarith [this ▸ hq]
    rw [formatValueLoop_step q 0 (by linarith) (by norm_num),
      formatValueLoop_step _ 1 (by linarith) (by norm_num),
      formatValueLoop_step _ 2 (by linarith) (by norm_num),
      formatValueLoop_step _ 3 (by linarith) (by norm_num),
      formatValueLoop_exit _ 4 (fun hcon => absurd hcon.2 (by omega))]
    refine Prod.ext ?_ rfl
    show q / 1000 / 1000 / 1000 / 1000 = q / 1000 ^ 4
    ring
  refine ⟨fun q i hi => formatValueLoop_index_bounds (4 - i) q i (le_refl _) hi,
    hloop, ?_, ?_⟩
  · intro v hnum hbig
    rw [format_value, if_pos hnum]
    rw [hloop (toRat v) hbig]
    rfl
  · intro v hnum
    rw [format_value, if_neg (by rw [hnum]; exact Bool.false_ne_true)]

/-- C8 witness: concrete instances — the loop index stays ≤ 4; 10^15 is
rendered with the "T" suffix; a string input yields "N/A". -/
theorem format_value_loop_bounded_witness :
    (formatValueLoop 5 0).2 ≤ 4 ∧
    format_value (PyVal.float (10 ^ 15)) =
      "$" ++ formatFixed ((10 : ℚ) ^ 15 / 1000 ^ 4) 1 ++ "T" ∧
    format_value (PyVal.str ("hello")) = "N/A" :=
  ⟨(format_value_loop_bounded.1 5 0 (by norm_num)).2,
   format_value_loop_bounded.2.2.1 (PyVal.float (10 ^ 15)) rfl (by norm_num [toRat]),
   format_value_loop_bounded.2.2.2 (PyVal.str ("hello")) rfl⟩

/-- C7: `safe_format` returns "N/A" for every input that is not an int or
float (including a missing/`None` value), and renders every int or float in
fixed-point with the requested number of decimal places — never "N/A", so an
absent value is never turned into a number.  "Never raises" is captured by
the totality of the embedding. -/
theorem safe_format_spec (v : PyVal) (dp : ℕ) :
    (isinstanceNum v = false → safe_format v dp = "N/A") ∧
    (isinstanceNum v = true →
      safe_format v dp = formatFixed (toRat v) dp ∧
      safe_format v dp ≠ "N/A" ∧
      (0 < dp → decimalsOf (safe_format v dp) = dp)) := by
  constructor
  · intro h
    rw [safe_format, if_neg (by rw [h]; exact Bool.false_ne_true)]
  · intro h
    have he : safe_format v dp = formatFixed (toRat v) dp := by
      rw [safe_format, if_pos h]
    refine ⟨he, ?_, ?_⟩
    · rw [he]
      exact formatFixed_ne_NA _ _
    · intro hdp
      rw [he]
      exact decimalsOf_formatFixed _ _ hdp

/-- C7 witness: Python's `None` renders as "N/A"; the float 7/2 renders with
exactly 2 decimal places and is not "N/A". -/
theorem safe_format_spec_witness :
    safe_format PyVal.pyNone 2 = "N/A" ∧
    safe_format (PyVal.float (7 / 2)) 2 ≠ "N/A" ∧
    decimalsOf (safe_format (PyVal.float (7 / 2)) 2) = 2 :=
  ⟨(safe_format_spec PyVal.pyNone 2).1 rfl,
   ((safe_format_spec (PyVal.float (7 / 2)) 2).2 rfl).2.1,
   ((safe_format_spec (PyVal.float (7 / 2)) 2).2 rfl).2.2 (by norm_num)⟩

/-- C1: `black_scholes_greeks` at spot 100, strike 100, one year to expiry,
risk-free rate 0.05, implied vol 0.2 returns a Call delta equal to the
standard closed-form reference value 0.6368 to 4 decimal places (here
d1 = 0.35 and Φ(0.35) ∈ (0.63675, 0.63685)), and for every input the Put
delta equals the Call delta minus 1. -/
theorem black_scholes_delta_reference :
    |bsDelta 100 100 1 0.05 0.2 OptionSide.call - 0.6368| < 0.00005 ∧
    ∀ S K T r σ : ℝ,
      bsDelta S K T r σ OptionSide.put
        = bsDelta S K T r σ OptionSide.call - 1 := by
  constructor
  · have h35 : d1 100 100 1 0.05 0.2 = 0.35 := by
      rw [d1, show (100 : ℝ) / 100 = 1 by norm_num, Real.log_one,
        Real.sqrt_one]
      norm_num
    show |normalCdf (d1 100 100 1 0.05 0.2) - 0.6368| < 0.00005
    rw [h35, normalCdf]
    have hg : (∫ t in (0:ℝ)..(0.35 : ℝ), Real.exp (-t ^ 2 / 2)) = gaussInt :=
      rfl
    rw [hg]
    have hs := sqrt_two_pi_bounds
    have hI := gaussInt_bounds
    have hs_pos : (0 : ℝ) < Real.sqrt (2 * Real.pi) := by linarith [hs.1]
    have h1 : (0.13675 : ℝ) < gaussInt / Real.sqrt (2 * Real.pi) := by
      rw [lt_div_iff₀ hs_pos]
      nlinarith [hs.2, hI.1]
    have h2 : gaussInt / Real.sqrt (2 * Real.pi) < (0.13685 : ℝ) := by
      rw [div_lt_iff₀ hs_pos]
      nlinarith [hs.1, hI.2]
    rw [abs_lt]
    constructor <;> linarith
  · intro S K T r σ
    rfl

end OptionsApp
